import Mathlib

/-!
# Verification of the 2D-POLIM portrait/cosine-fit pipeline (util2dpolim/movie.py)

Shallow embedding of the parts of `Movie` (movie.py) that the specification's
claims are about.  IEEE-double values are embedded as exact rationals (every
finite double is a rational); `np.nan` is embedded explicitly where the code's
NaN behaviour matters (the `RV` type below, or `Option ℚ` where only a single
value can be NaN).  Python exceptions (AssertionError, numpy warnings promoted
to errors by `warnings.filterwarnings('error')` at movie.py line 15) are
embedded as `Except.error`.
-/

namespace POLIM

/-- The IEEE double-precision value of `np.pi`, as an exact rational
(3.14159265358979311599…). -/
def pi64 : ℚ := 884279719003555 / 281474976710656

/-- The IEEE double-precision machine epsilon `np.finfo(np.float).eps = 2⁻⁵²`. -/
def eps64 : ℚ := 1 / 4503599627370496

/-- The tolerance `10 * np.finfo(np.float).eps` used throughout movie.py. -/
def tenEps : ℚ := 10 * eps64

/-- A floating-point value: either NaN or an exact rational. -/
inductive RV where
  | nan : RV
  | val (x : ℚ) : RV
deriving DecidableEq

/-- Addition; NaN propagates silently. -/
def RV.add : RV → RV → RV
  | val a, val b => val (a + b)
  | _, _ => nan

/-- Subtraction; NaN propagates silently. -/
def RV.sub : RV → RV → RV
  | val a, val b => val (a - b)
  | _, _ => nan

/-- Absolute value; NaN propagates silently. -/
def RV.absv : RV → RV
  | nan => nan
  | val a => val |a|

/-- numpy scalar division under `warnings.filterwarnings('error')`: dividing a
real value by real zero raises (divide-by-zero or invalid warning, promoted to
an error), while NaN operands propagate silently without any warning. -/
def RV.div : RV → RV → Except String RV
  | _, nan => Except.ok nan
  | nan, _ => Except.ok nan
  | val a, val b =>
      if b = 0 then Except.error "RuntimeWarning: divide by zero / invalid value"
      else Except.ok (val (a / b))

/-- IEEE comparison `v < c` with a real constant: False whenever `v` is NaN. -/
def RV.ltv : RV → ℚ → Bool
  | nan, _ => false
  | val a, c => decide (a < c)

/-- IEEE comparison `v > c` with a real constant: False whenever `v` is NaN. -/
def RV.gtv : RV → ℚ → Bool
  | nan, _ => false
  | val a, c => decide (c < a)

/-- `np.sum` of a 4-element peak column. -/
def rvSum4 (p : Fin 4 → RV) : RV :=
  (((p 0).add (p 1)).add (p 2)).add (p 3)

/-- The reliability test `np.abs(np.sum(peaks) - 1) > .08` of movie.py lines
1003 and 1029; it is False when the sum is NaN (IEEE comparison). -/
def peaksSumDeviates (p : Fin 4 → RV) : Bool :=
  (((rvSum4 p).sub (RV.val 1)).absv).gtv (8 / 100)

/-- Per-spot tail of `Movie.ETrulerFFT_selective` (movie.py lines 999–1049).
`peaks` is the column `self.peaks[:,sii]` of windowed normalized power sums of
the resampled data (computed at lines 953–995), `MYpeaks` the corresponding
normalized peaks of the 3-dipole no-ET reference model built from the spot's
`M_ex` (lines 1010–1026); both are NaN throughout when upstream data (e.g.
`M_ex`) is NaN.  `et0` is the spot's `ET_ruler` value before the loop body.
The function returns the `ET_ruler` value stored on the spot when the body
completes.  Note that the two deviation tests assign NaN to `ET_ruler` but do
not leave the loop body, so line 1049 overwrites that assignment with the
clamped ruler. -/
def ETrulerFFT_spot_tail (et0 : RV) (peaks MYpeaks : Fin 4 → RV) :
    Except String RV :=
  let et1 := if peaksSumDeviates peaks then RV.nan else et0
  let et2 := if peaksSumDeviates MYpeaks then RV.nan else et1
  let crossdiff := (peaks 1).sub (peaks 3)
  let MYcrossdiff := (MYpeaks 1).sub (MYpeaks 3)
  match crossdiff.div MYcrossdiff with
  | Except.error e => Except.error e
  | Except.ok q =>
      let ruler := (RV.val 1).sub q
      let ruler1 := if ruler.ltv 0 then RV.val 0 else ruler
      let ruler2 := if ruler1.gtv 1 then RV.val 1 else ruler1
      -- `et2` (the interim NaN assignments of lines 1005 and 1031) is dead:
      -- line 1049 stores `ruler2` unconditionally.
      Except.ok ruler2

/-- Observed peak column with a NaN reference-model column: models a spot whose
`M_ex` is NaN, which makes every entry of `MYpeaks` NaN. -/
def c1peaks : Fin 4 → RV := fun _ => RV.val (1 / 4)

/-- Reference-model peaks of a NaN `M_ex` spot: all NaN. -/
def c1MYpeaks : Fin 4 → RV := fun _ => RV.nan

/-- Observed peaks summing to 0.9 (deviation 0.1 > 0.08). -/
def c2peaks : Fin 4 → RV := fun i =>
  RV.val (if i = 0 then 1 / 2 else if i = 1 then 2 / 5 else 0)

/-- Well-behaved reference-model peaks (sum 1, cross difference 1/5 ≠ 0). -/
def c2MYpeaks : Fin 4 → RV := fun i =>
  RV.val (if i = 0 then 2 / 5 else if i = 1 then 3 / 10 else if i = 2 then 1 / 5 else 1 / 10)

/-- Round half to even (numpy's rounding mode), to an integer. -/
def roundHalfEven (x : ℚ) : ℤ :=
  let f := Int.floor x
  if x - f < 1 / 2 then f
  else if 1 / 2 < x - f then f + 1
  else if Even f then f else f + 1

/-- `np.round(x, decimals=2)`. -/
def round2 (x : ℚ) : ℚ := (roundHalfEven (x * 100) : ℚ) / 100

/-- The frames-per-portrait quantity of `Movie.find_portraits`: the number of
unique rounded excitation angles times the number of unique rounded emission
angles (movie.py lines 516–522). -/
def fppOf (exangles emangles : List ℚ) : ℕ :=
  (exangles.map round2).toFinset.card * (emangles.map round2).toFinset.card

/-- Shallow embedding of `Movie.find_portraits` (movie.py lines 515–541).
`exangles`, `emangles` are the per-frame motor angles; the frame count is
`self.motors.excitation_angles.size = exangles.length`.  `Except.error` models
the raised AssertionError (or the ZeroDivisionError when there are no frames at
all).  On success it returns `(Nportraits, portrait_indices)` as stored on the
movie object. -/
def find_portraits (exangles emangles : List ℚ) (frameoffset : ℤ) :
    Except String (ℤ × List ℤ) :=
  let Nframes := exangles.length
  let fpp := fppOf exangles emangles
  if fpp = 0 then Except.error "ZeroDivisionError" else
  let Nportraits := Nframes / fpp
  if ¬ Nframes % fpp = 0 then
    Except.error "AssertionError: np.mod( Nframes, fpp )==0" else
  let portrait_indices :=
    ((List.range (Nportraits + 1)).map
        (fun pi : ℕ => (pi : ℤ) * (fpp : ℤ) + frameoffset)).takeWhile
      (fun ind => decide (ind ≤ (Nframes : ℤ)))
  let Nportraits2 : ℤ := (portrait_indices.length : ℤ) - 1
  if Nportraits2 ≤ 0 then Except.error "AssertionError: Number of portraits is zero."
  else Except.ok (Nportraits2, portrait_indices)

/-- Excitation angles for the remainder counterexample: 15 frames, 3 unique
rounded excitation angles. -/
def c3ex15 : List ℚ := [0, 1, 2, 0, 1, 2, 0, 1, 2, 0, 1, 2, 0, 1, 2]

/-- Emission angles for the remainder counterexample: 15 frames, 2 unique
rounded emission angles, so fpp = 6 and 15 = 2·6 + 3. -/
def c3em15 : List ℚ := [0, 0, 0, 1, 1, 1, 0, 0, 0, 1, 1, 1, 0, 0, 0]

/-- 12-frame variant of the same scan (r = 0, k = 2). -/
def c3ex12 : List ℚ := [0, 1, 2, 0, 1, 2, 0, 1, 2, 0, 1, 2]

/-- 12-frame emission angles (2 unique, fpp = 6, k = 2 portraits). -/
def c3em12 : List ℚ := [0, 0, 0, 1, 1, 1, 0, 0, 0, 1, 1, 1]

/-- The cosine model `mycos = lambda a, ph, I, M: I*(1+M*(np.cos(2*(a-ph))))`
of movie.py lines 870 and 915.  `cosv` stands for `np.cos`, kept abstract
because the embedding works with exact rationals. -/
def mycos (cosv : ℚ → ℚ) (a ph I M : ℚ) : ℚ := I * (1 + M * cosv (2 * (a - ph)))

/-- Per-spot anisotropy assignment of
`Movie.find_modulation_depths_and_phases_selective`: the "advanced" variant
(movie.py lines 872–884) evaluates the fitted vertical cosine model at the
spot's own `phase_ex` (so `a = phase_ex`), the "normal" variant (lines
917–928) at the fixed lab-frame angle `ex_par_rad = 0` (so `a = 0`); the
perpendicular configuration is `a - np.pi/2` in both.  `fp`, `fi`, `fm` are
the fitted phase / intensity / modulation of the vertical fit; `none` models
`np.nan`. -/
def anisotropy_store (cosv : ℚ → ℚ) (a fp fi fm : ℚ) : Option ℚ :=
  let Ipara := mycos cosv a fp fi fm
  let Iperp := mycos cosv (a - pi64 / 2) fp fi fm
  if ¬ Ipara + 2 * Iperp = 0 then some ((Ipara - Iperp) / (Ipara + 2 * Iperp))
  else none

/-- `np.unique`: the sorted list of distinct values. -/
def npUnique (l : List ℚ) : List ℚ := l.toFinset.sort (· ≤ ·)

/-- `np.linspace(0, stop, n, endpoint=False)`: the values `i * (stop / n)`. -/
def linspaceNE (stop : ℚ) (n : ℕ) : List ℚ :=
  (List.range n).map (fun i : ℕ => (i : ℚ) * (stop / n))

/-- `np.mod` on scalars (floored modulo), matching numpy for a positive
modulus. -/
def npMod (x m : ℚ) : ℚ := x - m * (Int.floor (x / m) : ℚ)

/-- The snap of movie.py lines 148–149: a value equal to π within ten machine
epsilons is set to exactly π. -/
def snapPi (x : ℚ) : ℚ := if |x - pi64| < tenEps then pi64 else x

/-- The excitation/emission angle-grid construction of `Movie.__init__`
(movie.py lines 138–151): linspace both grids evenly over [0, π) with one
point per unique observed angle, add the phase offset (converted from degrees)
to the excitation grid only, snap excitation values within `10·eps` of π to
exactly π, then wrap the excitation grid into [0, π) with `np.mod`. -/
def movieGrids (exangles emangles : List ℚ) (phase_offset_in_deg : ℚ) :
    List ℚ × List ℚ :=
  let ExAngleGridSize := (npUnique exangles).length
  let EmAngleGridSize := (npUnique emangles).length
  let phase_offset_in_rad := phase_offset_in_deg * pi64 / 180
  let emission_angles_grid := linspaceNE pi64 EmAngleGridSize
  let ex1 := (linspaceNE pi64 ExAngleGridSize).map (fun x => x + phase_offset_in_rad)
  let ex2 := ex1.map snapPi
  let excitation_angles_grid := ex2.map (fun x => npMod x pi64)
  (excitation_angles_grid, emission_angles_grid)

/-- The grid-coverage validation of `Movie.__init__` (movie.py lines 160–166):
for every unique observed excitation (then emission) angle, assert that some
grid entry lies within `10·eps`; `Except.error` models the AssertionError. -/
def movieInitGrids (exangles emangles : List ℚ) (phase_offset_in_deg : ℚ) :
    Except String (List ℚ × List ℚ) :=
  let g := movieGrids exangles emangles phase_offset_in_deg
  if (npUnique exangles).all (fun uexa => g.1.any (fun x => decide (|uexa - x| < tenEps))) then
    if (npUnique emangles).all (fun uema => g.2.any (fun x => decide (|uema - x| < tenEps))) then
      Except.ok g
    else Except.error "The emission angles and their grid don't match, which is strange..."
  else Except.error "The excitation angles and their grid don't match, which is strange..."

/-- Observed excitation/emission angles for the monotonicity counterexample:
two unique angles of each kind. -/
def c6angles : List ℚ := [0, 1]

/-- Modelled from the spec: `CosineFitter_new` (fitting.py, which is not part
of the analysed sources) returns per-column phases in a bounded half-open
range of width π, `[-π/2, π/2)` (spec §3, FitResult). -/
def specFitterPhase (ph : ℚ) : Prop := -(pi64 / 2) ≤ ph ∧ ph < pi64 / 2

/-- The line-shift computation of
`Movie.find_modulation_depths_and_phases_selective` (movie.py lines 810–812),
per spot: `LS = ph_ex - ph_em`, then sequentially `LS[LS > π/2] -= π` and
`LS[LS < -π/2] += π`. -/
def LS_store (ph_ex ph_em : ℚ) : ℚ :=
  let LS0 := ph_ex - ph_em
  let LS1 := if pi64 / 2 < LS0 then LS0 - pi64 else LS0
  if LS1 < -(pi64 / 2) then LS1 + pi64 else LS1

/-- The five per-spot outputs of `Movie.ETmodel_selective`; `none` models
`np.nan`. -/
structure ETmodelOut where
  md_fu : Option ℚ
  th_fu : Option ℚ
  gr : Option ℚ
  et : Option ℚ
  resi : Option ℚ
deriving DecidableEq

/-- `np.clip(x, lo, hi)` on a real scalar. -/
def npClip (x lo hi : ℚ) : ℚ := min (max x lo) hi

/-- Per-spot body of `Movie.ETmodel_selective` (movie.py lines 1138–1189):
`mex = np.clip(M_ex, .000001, .999999)` (NaN passes through `np.clip`
unchanged), then `if not np.isnan(mex)` run the bounded optimization
`the_new_way()` — abstracted here as `theNewWay`, a function of the clipped
`mex` (the spot's `phase_ex`, `sam` and the optimizer's tolerances are fixed
in its closure) returning `(md_fu, th_fu, gr, et, resi)` — else store NaN in
all five outputs without touching the optimizer. -/
def ETmodel_spot (theNewWay : ℚ → ℚ × ℚ × ℚ × ℚ × ℚ) (M_ex : Option ℚ) :
    ETmodelOut :=
  let mex := M_ex.map (fun m => npClip m (1 / 1000000) (999999 / 1000000))
  match mex with
  | some m =>
      let r := theNewWay m
      ⟨some r.1, some r.2.1, some r.2.2.1, some r.2.2.2.1, some r.2.2.2.2⟩
  | none => ⟨none, none, none, none, none⟩

/-- `np.array_split(np.arange n, k)` helper: `count` remaining blocks of base
length `l`, the first `r` of them one element longer, starting at `start`. -/
def arraySplitFrom (start count l r : ℕ) : List (List ℕ) :=
  match count with
  | 0 => []
  | count' + 1 =>
      let len := l + (if 0 < r then 1 else 0)
      ((List.range len).map (· + start)) ::
        arraySplitFrom (start + len) count' l (r - 1)

/-- `np.array_split(np.arange n, k)`: `k` contiguous near-equal blocks, the
first `n % k` of size `n / k + 1`. -/
def arraySplit (n k : ℕ) : List (List ℕ) := arraySplitFrom 0 k (n / k) (n % k)

/-- The dispatch phase of `Movie.run_mp` (movie.py lines 185–210): the
stage-dependency assertion `assert fits >= mods >= ETruler >= ETmodel` (line
197, Python booleans comparing as integers, the chained comparison meaning the
three pairwise ones) runs *before* `np.array_split` prepares the per-worker
spot blocks and before any `mproc.Process` is created; an `Except.error`
therefore means no worker was spawned.  On success it returns the per-worker
spot-index blocks handed to the workers. -/
def run_mp_dispatch (nvalidspots Nprocs : ℕ) (fits mods ETruler ETmodel : Bool) :
    Except String (List (List ℕ)) :=
  if mods.toNat ≤ fits.toNat ∧ ETruler.toNat ≤ mods.toNat ∧ ETmodel.toNat ≤ ETruler.toNat then
    Except.ok (arraySplit nvalidspots Nprocs)
  else Except.error "AssertionError: fits >= mods >= ETruler >= ETmodel"

/-- A signal-to-noise value: `+inf` or a real value. -/
inductive SnrVal where
  | inf : SnrVal
  | fin (x : ℚ) : SnrVal
deriving DecidableEq

/-- IEEE comparison `v > t` for an SNR value: `+inf` exceeds every real
threshold. -/
def snrGTq (v : SnrVal) (t : ℚ) : Bool :=
  match v with
  | SnrVal.inf => true
  | SnrVal.fin x => decide (t < x)

/-- A spot as seen by `are_spots_valid`: its per-frame intensity series,
whether it carries its own border background, and (if so) its border
background standard deviation series. -/
structure SpotIn where
  intensity : List ℚ
  use_borderbg : Bool
  borderbgstd : List ℚ
deriving DecidableEq

/-- The SNR assignment of `Movie.are_spots_valid` (movie.py lines 1231–1234):
if the effective `bgstd` is unknown (`None`) or contains a zero, every frame's
SNR is `+inf`; otherwise the SNR is `|intensity/bgstd|` frame by frame. -/
def spotSNR (bgstd : Option (List ℚ)) (s : SpotIn) : List SnrVal :=
  match bgstd with
  | none => s.intensity.map (fun _ => SnrVal.inf)
  | some b =>
      if b.any (fun x => decide (x = 0)) then s.intensity.map (fun _ => SnrVal.inf)
      else List.zipWith (fun i bi => SnrVal.fin |i / bi|) s.intensity b

/-- The spot loop of `Movie.are_spots_valid` (movie.py lines 1226–1239) with
the local variable `bgstd` threaded explicitly: note that the code never
resets `bgstd` after a `use_borderbg` spot sets it, so the assignment persists
for all later spots.  `si` is the running spot index; the result is
`validspotindices`. -/
def areSpotsValidLoop (SNRthr vfr : ℚ) :
    Option (List ℚ) → ℕ → List SpotIn → List ℕ
  | _, _, [] => []
  | bgstd, si, s :: rest =>
      let bgstd2 := if s.use_borderbg then some s.borderbgstd else bgstd
      let snr := spotSNR bgstd2 s
      let framecountSNR := (snr.filter (fun v => snrGTq v SNRthr)).length
      let keep := decide (vfr * (snr.length : ℚ) ≤ (framecountSNR : ℚ))
      (if keep then [si] else []) ++ areSpotsValidLoop SNRthr vfr bgstd2 (si + 1) rest

/-- `Movie.are_spots_valid` (movie.py lines 1214–1259): `bgstd` starts as the
sample background spot's std series (or `None` when no background spot is
defined); returns the list of valid spot indices. -/
def are_spots_valid (bg_spot_sample_std : Option (List ℚ)) (SNRthr vfr : ℚ)
    (spots : List SpotIn) : List ℕ :=
  areSpotsValidLoop SNRthr vfr bg_spot_sample_std 0 spots

/-- Whether the effective background std is degenerate in the sense of
movie.py line 1231: unknown, or containing a zero. -/
def degenerateBg (bgstd : Option (List ℚ)) : Bool :=
  match bgstd with
  | none => true
  | some b => b.any (fun x => decide (x = 0))

/-- A spot carrying its own border background (std 1) but failing the SNR
criterion (zero intensity). -/
def c10spot1 : SpotIn := ⟨[0], true, [1]⟩

/-- A spot with no border background of its own and zero intensity. -/
def c10spot2 : SpotIn := ⟨[0], false, []⟩

/-! ## Helper lemmas -/

theorem pi64_pos : 0 < pi64 := by norm_num [pi64]

theorem takeWhile_eq_self {α : Type} (p : α → Bool) :
    ∀ l : List α, (∀ x ∈ l, p x = true) → l.takeWhile p = l
  | [], _ => rfl
  | x :: xs, h => by
    simp only [List.takeWhile_cons, h x (List.mem_cons_self x xs), if_true]
    exact congrArg (x :: ·) (takeWhile_eq_self p xs fun y hy => h y (List.mem_cons_of_mem x hy))

/-! ## C9: run_mp enforces the stage-dependency order before spawning workers -/

/-- C9: for every flag combination violating the stage-dependency order
`fits ≥ mods ≥ ETruler ≥ ETmodel` (Python booleans comparing as integers),
`run_mp` raises the assertion (a precondition failure) before any worker
process is spawned: the dispatch returns the error and no per-worker spot
blocks are ever produced. -/
theorem run_mp_precondition_spec (nvalidspots Nprocs : ℕ)
    (fits mods ETruler ETmodel : Bool)
    (hviol : ¬ (mods.toNat ≤ fits.toNat ∧ ETruler.toNat ≤ mods.toNat ∧
      ETmodel.toNat ≤ ETruler.toNat)) :
    run_mp_dispatch nvalidspots Nprocs fits mods ETruler ETmodel =
      Except.error "AssertionError: fits >= mods >= ETruler >= ETmodel" := by
  simp only [run_mp_dispatch, if_neg hviol]

/-- C9 witness: the particular violation `mods=True` with `fits=False`. -/
theorem run_mp_precondition_spec_witness :
    ¬ ((true : Bool).toNat ≤ (false : Bool).toNat ∧
        (false : Bool).toNat ≤ (true : Bool).toNat ∧
        (false : Bool).toNat ≤ (false : Bool).toNat) ∧
    run_mp_dispatch 10 2 false true false false =
      Except.error "AssertionError: fits >= mods >= ETruler >= ETmodel" :=
  ⟨by decide, run_mp_precondition_spec 10 2 false true false false (by decide)⟩

/-! ## C8: ETmodel_selective — NaN M_ex short-circuit, and M_ex clipping -/

/-- C8: for every spot processed by `ETmodel_selective`, if `M_ex` is NaN then
all five outputs are NaN and the optimizer is never consulted (the result is
the same for every optimizer); otherwise the optimizer is run on `M_ex`
clipped into `[1e-6, 1-1e-6]` and its results are stored. -/
theorem ETmodel_spec (theNewWay : ℚ → ℚ × ℚ × ℚ × ℚ × ℚ) (M_ex : Option ℚ) :
    (M_ex = none →
      ETmodel_spot theNewWay M_ex = ⟨none, none, none, none, none⟩ ∧
      ∀ g : ℚ → ℚ × ℚ × ℚ × ℚ × ℚ, ETmodel_spot g M_ex = ETmodel_spot theNewWay M_ex) ∧
    (∀ m : ℚ, M_ex = some m →
      1 / 1000000 ≤ npClip m (1 / 1000000) (999999 / 1000000) ∧
      npClip m (1 / 1000000) (999999 / 1000000) ≤ 999999 / 1000000 ∧
      ETmodel_spot theNewWay M_ex =
        ⟨some (theNewWay (npClip m (1 / 1000000) (999999 / 1000000))).1,
         some (theNewWay (npClip m (1 / 1000000) (999999 / 1000000))).2.1,
         some (theNewWay (npClip m (1 / 1000000) (999999 / 1000000))).2.2.1,
         some (theNewWay (npClip m (1 / 1000000) (999999 / 1000000))).2.2.2.1,
         some (theNewWay (npClip m (1 / 1000000) (999999 / 1000000))).2.2.2.2⟩) := by
  constructor
  · rintro rfl
    exact ⟨rfl, fun g => rfl⟩
  · rintro m rfl
    exact ⟨le_min (le_max_right m (1 / 1000000)) (by norm_num),
           min_le_right _ _, rfl⟩

/-- C8 witness: at `M_ex = NaN` all outputs are NaN (for a concrete optimizer),
and at `M_ex = 2` the optimizer is consulted at the clipped value. -/
theorem ETmodel_spec_witness :
    (ETmodel_spot (fun m => (m, m, m, m, m)) none = ⟨none, none, none, none, none⟩) ∧
    (1 / 1000000 ≤ npClip 2 (1 / 1000000) (999999 / 1000000) ∧
     npClip 2 (1 / 1000000) (999999 / 1000000) ≤ 999999 / 1000000 ∧
     ETmodel_spot (fun m => (m, m, m, m, m)) (some 2) =
       ⟨some ((fun m : ℚ => (m, m, m, m, m)) (npClip 2 (1 / 1000000) (999999 / 1000000))).1,
        some ((fun m : ℚ => (m, m, m, m, m)) (npClip 2 (1 / 1000000) (999999 / 1000000))).2.1,
        some ((fun m : ℚ => (m, m, m, m, m)) (npClip 2 (1 / 1000000) (999999 / 1000000))).2.2.1,
        some ((fun m : ℚ => (m, m, m, m, m)) (npClip 2 (1 / 1000000) (999999 / 1000000))).2.2.2.1,
        some ((fun m : ℚ => (m, m, m, m, m)) (npClip 2 (1 / 1000000) (999999 / 1000000))).2.2.2.2⟩) :=
  ⟨((ETmodel_spec (fun m => (m, m, m, m, m)) none).1 rfl).1,
   (ETmodel_spec (fun m => (m, m, m, m, m)) (some 2)).2 2 rfl⟩

/-! ## C4: anisotropy formula and zero-denominator handling -/

/-- C4: for every processed spot, the stored anisotropy (advanced variant,
`a = phase_ex`) and anisotropy_n (normal variant, `a = 0`) equal
`(Ipara - Iperp)/(Ipara + 2*Iperp)` with `Ipara`, `Iperp` the fitted vertical
cosine model evaluated at the parallel angle `a` and perpendicular angle
`a - π/2`; when the denominator is exactly zero the stored value is NaN and,
the guard being checked before dividing, no division exception is raised
(the embedded assignment is a total function). -/
theorem anisotropy_spec (cosv : ℚ → ℚ) (a fp fi fm : ℚ) :
    (mycos cosv a fp fi fm + 2 * mycos cosv (a - pi64 / 2) fp fi fm = 0 →
      anisotropy_store cosv a fp fi fm = none) ∧
    (mycos cosv a fp fi fm + 2 * mycos cosv (a - pi64 / 2) fp fi fm ≠ 0 →
      anisotropy_store cosv a fp fi fm =
        some ((mycos cosv a fp fi fm - mycos cosv (a - pi64 / 2) fp fi fm) /
          (mycos cosv a fp fi fm + 2 * mycos cosv (a - pi64 / 2) fp fi fm))) := by
  constructor
  · intro h
    simp only [anisotropy_store, h, not_true_eq_false, if_false]
  · intro h
    simp only [anisotropy_store, if_pos h]

/-- C4 witness: a zero cosine with `fi = 0` gives a zero denominator and a NaN
anisotropy; with `fi = 1` the denominator is 3 and the quotient is stored. -/
theorem anisotropy_spec_witness :
    anisotropy_store (fun _ => 0) 0 0 0 0 = none ∧
    anisotropy_store (fun _ => 0) 0 0 1 0 =
      some ((mycos (fun _ => 0) 0 0 1 0 - mycos (fun _ => 0) (0 - pi64 / 2) 0 1 0) /
        (mycos (fun _ => 0) 0 0 1 0 + 2 * mycos (fun _ => 0) (0 - pi64 / 2) 0 1 0)) :=
  ⟨(anisotropy_spec (fun _ => 0) 0 0 0 0).1 (by norm_num [mycos]),
   (anisotropy_spec (fun _ => 0) 0 0 1 0).2 (by norm_num [mycos])⟩

/-! ## C1: the ET ruler clamp -/

/-- C1 (amended): for every spot whose observed and reference-model peak
columns are real numbers (no NaN) with a nonzero reference cross-difference,
the `ET_ruler` stored at the end of the loop body is exactly the raw ruler
`1 - crossdiff/MYcrossdiff` clamped into `[0, 1]` (below 0 ↦ 0, above 1 ↦ 1),
regardless of the raw ruler's magnitude; the clamped value lies in `[0, 1]`.
(When the raw ruler is NaN — e.g. `M_ex` NaN makes the reference model NaN —
the stored value is NaN instead; see the counterexample.) -/
theorem etruler_clamp_spec (et0 : RV) (p q : Fin 4 → ℚ) (h : q 1 - q 3 ≠ 0) :
    ETrulerFFT_spot_tail et0 (fun i => RV.val (p i)) (fun i => RV.val (q i)) =
      Except.ok (RV.val (min 1 (max 0 (1 - (p 1 - p 3) / (q 1 - q 3))))) ∧
    0 ≤ min 1 (max 0 (1 - (p 1 - p 3) / (q 1 - q 3))) ∧
    min 1 (max 0 (1 - (p 1 - p 3) / (q 1 - q 3))) ≤ 1 := by
  refine ⟨?_, le_min (by norm_num) (le_max_left 0 _), min_le_left _ _⟩
  by_cases h1 : 1 - (p 1 - p 3) / (q 1 - q 3) < 0
  · have hmax : max 0 (1 - (p 1 - p 3) / (q 1 - q 3)) = 0 := max_eq_left h1.le
    have hmin : min 1 (max 0 (1 - (p 1 - p 3) / (q 1 - q 3))) = 0 := by
      rw [hmax]; exact min_eq_right (by norm_num)
    rw [hmin]
    norm_num [ETrulerFFT_spot_tail, RV.sub, RV.div, RV.ltv, RV.gtv, h, h1]
  · have hmax : max 0 (1 - (p 1 - p 3) / (q 1 - q 3)) =
        1 - (p 1 - p 3) / (q 1 - q 3) := max_eq_right (not_lt.mp h1)
    by_cases h2 : 1 < 1 - (p 1 - p 3) / (q 1 - q 3)
    · have hmin : min 1 (max 0 (1 - (p 1 - p 3) / (q 1 - q 3))) = 1 := by
        rw [hmax]; exact min_eq_left h2.le
      rw [hmin]
      norm_num [ETrulerFFT_spot_tail, RV.sub, RV.div, RV.ltv, RV.gtv, h, h1, h2]
    · have hmin : min 1 (max 0 (1 - (p 1 - p 3) / (q 1 - q 3))) =
          1 - (p 1 - p 3) / (q 1 - q 3) := by
        rw [hmax]; exact min_eq_right (not_lt.mp h2)
      rw [hmin]
      norm_num [ETrulerFFT_spot_tail, RV.sub, RV.div, RV.ltv, RV.gtv, h, h1, h2]

/-- C1 witness: observed peaks all 0 and reference peaks `q = (0,1,0,0)` give
the raw ruler `1 - 0/1 = 1`, stored as is and lying in `[0, 1]`. -/
theorem etruler_clamp_spec_witness :
    ((fun i : Fin 4 => if i = 1 then (1 : ℚ) else 0) 1 -
      (fun i : Fin 4 => if i = 1 then (1 : ℚ) else 0) 3 ≠ 0) ∧
    ETrulerFFT_spot_tail RV.nan (fun i => RV.val ((fun _ : Fin 4 => (0 : ℚ)) i))
        (fun i => RV.val ((fun j : Fin 4 => if j = 1 then (1 : ℚ) else 0) i)) =
      Except.ok (RV.val (min 1 (max 0 (1 -
        ((fun _ : Fin 4 => (0 : ℚ)) 1 - (fun _ : Fin 4 => (0 : ℚ)) 3) /
        ((fun i : Fin 4 => if i = 1 then (1 : ℚ) else 0) 1 -
         (fun i : Fin 4 => if i = 1 then (1 : ℚ) else 0) 3))))) :=
  ⟨by
    have h31 : (3 : Fin 4) ≠ 1 := by decide
    simp [h31],
   (etruler_clamp_spec RV.nan (fun _ => (0 : ℚ))
      (fun i => if i = 1 then (1 : ℚ) else 0)
      (by
        have h31 : (3 : Fin 4) ≠ 1 := by decide
        simp [h31])).1⟩

/-- C1 counterexample: a spot whose reference-model peaks are NaN (as happens
when its `M_ex` is NaN: the 3-dipole model, its FFT and its peak sums are then
all NaN, with every IEEE comparison on them False) ends the loop body with
`ET_ruler = NaN`, which is not a value in `[0, 1]` — the claim's universal
clamp into `[0, 1]` fails for such spots. -/
theorem etruler_nan_counterexample :
    ETrulerFFT_spot_tail RV.nan c1peaks c1MYpeaks = Except.ok RV.nan ∧
    RV.nan ≠ RV.val 0 ∧ RV.nan ≠ RV.val 1 := by
  refine ⟨?_, by simp, by simp⟩
  simp [ETrulerFFT_spot_tail, c1peaks, c1MYpeaks, RV.sub, RV.div, RV.ltv, RV.gtv]

/-! ## C2: peak-sum deviation is supposed to force a NaN ruler -/

/-- C2 (code evaluated at the failing input): the observed peaks sum to 0.9,
deviating from 1 by more than 0.08, so line 1005 sets `ET_ruler = NaN`; but
the loop body continues and line 1049 unconditionally overwrites it with the
clamped ruler (here `1 - (2/5)/(1/5) = -1`, clamped to 0).  The final
`ET_ruler` is 0, not NaN, contradicting the claim (and the code's own comment
"we shouldn't use this ruler"). -/
theorem etruler_deviating_peaks_overwritten :
    peaksSumDeviates c2peaks = true ∧
    ETrulerFFT_spot_tail RV.nan c2peaks c2MYpeaks = Except.ok (RV.val 0) ∧
    RV.val 0 ≠ RV.nan := by
  have f10 : (1 : Fin 4) ≠ 0 := by decide
  have f20 : (2 : Fin 4) ≠ 0 := by decide
  have f21 : (2 : Fin 4) ≠ 1 := by decide
  have f30 : (3 : Fin 4) ≠ 0 := by decide
  have f31 : (3 : Fin 4) ≠ 1 := by decide
  have f32 : (3 : Fin 4) ≠ 2 := by decide
  have habs : |(1 : ℚ) / 2 + 2 / 5 + 0 + 0 - 1| = 1 / 10 := by
    rw [show (1 : ℚ) / 2 + 2 / 5 + 0 + 0 - 1 = -(1 / 10) by norm_num, abs_neg]
    exact abs_of_pos (by norm_num)
  refine ⟨?_, ?_, by simp⟩
  · simp only [peaksSumDeviates, rvSum4, c2peaks, RV.add, RV.sub, RV.absv, RV.gtv,
      f10, f20, f21, f30, f31, f32, if_true, if_false, if_neg, if_pos, reduceIte,
      habs]
    norm_num
  · norm_num [ETrulerFFT_spot_tail, c2peaks, c2MYpeaks, RV.sub, RV.add, RV.div,
      RV.ltv, RV.gtv, f10, f20, f21, f30, f31, f32]

/-! ## C7: the line shift LS and its ±π correction -/

/-- C7 (amended): for every pair of fitted phases (each in the fitter's range
`[-π/2, π/2)`, modelled from the spec), the stored `LS` equals
`phase_ex - phase_em` after a single ±π correction (values > π/2 have π
subtracted, values < -π/2 have π added), and the result lies in the closed
interval `[-π/2, π/2]` (the endpoint `-π/2` is attainable, so the interval is
not half-open as claimed; see the counterexample). -/
theorem LS_wrap_spec (ph_ex ph_em : ℚ) (he : specFitterPhase ph_ex)
    (hm : specFitterPhase ph_em) :
    (-(pi64 / 2) ≤ LS_store ph_ex ph_em ∧ LS_store ph_ex ph_em ≤ pi64 / 2) ∧
    (LS_store ph_ex ph_em = ph_ex - ph_em ∨
     LS_store ph_ex ph_em = ph_ex - ph_em - pi64 ∨
     LS_store ph_ex ph_em = ph_ex - ph_em + pi64) := by
  obtain ⟨he1, he2⟩ := he
  obtain ⟨hm1, hm2⟩ := hm
  have hpi : (3 : ℚ) < pi64 := by norm_num [pi64]
  simp only [LS_store]
  split_ifs with h1 h2 h2
  · exact absurd h2 (by linarith)
  · exact ⟨⟨by linarith, by linarith⟩, Or.inr (Or.inl rfl)⟩
  · exact ⟨⟨by linarith, by linarith⟩, Or.inr (Or.inr rfl)⟩
  · exact ⟨⟨by linarith, by linarith⟩, Or.inl rfl⟩

/-- C7 witness: phases 1 and 0 give `LS = 1`, inside `[-π/2, π/2]` and
uncorrected. -/
theorem LS_wrap_spec_witness :
    (specFitterPhase 1 ∧ specFitterPhase 0) ∧
    ((-(pi64 / 2) ≤ LS_store 1 0 ∧ LS_store 1 0 ≤ pi64 / 2) ∧
     (LS_store 1 0 = 1 - 0 ∨ LS_store 1 0 = 1 - 0 - pi64 ∨
      LS_store 1 0 = 1 - 0 + pi64)) :=
  ⟨⟨by norm_num [specFitterPhase, pi64], by norm_num [specFitterPhase, pi64]⟩,
   LS_wrap_spec 1 0 (by norm_num [specFitterPhase, pi64])
     (by norm_num [specFitterPhase, pi64])⟩

/-- C7 counterexample: the fitted phases `-π/2` and `0` (both in the fitter's
range) give `LS = -π/2`: neither correction fires (the `<` at line 812 is
strict), and `-π/2` is not in the claimed half-open interval `(-π/2, π/2]`. -/
theorem LS_boundary_counterexample :
    specFitterPhase (-(pi64 / 2)) ∧ specFitterPhase 0 ∧
    LS_store (-(pi64 / 2)) 0 = -(pi64 / 2) ∧
    ¬ (-(pi64 / 2) < LS_store (-(pi64 / 2)) 0 ∧
       LS_store (-(pi64 / 2)) 0 ≤ pi64 / 2) := by
  have h1 : LS_store (-(pi64 / 2)) 0 = -(pi64 / 2) := by
    norm_num [LS_store, pi64]
  refine ⟨⟨by norm_num [pi64], by norm_num [pi64]⟩,
    ⟨by norm_num [pi64], by norm_num [pi64]⟩, h1, ?_⟩
  rw [h1]
  simp

/-! ## C3: find_portraits and the frame-count remainder -/

theorem round2_zero : round2 0 = 0 := by norm_num [round2, roundHalfEven]

theorem round2_one : round2 1 = 1 := by norm_num [round2, roundHalfEven]

theorem round2_two : round2 2 = 2 := by norm_num [round2, roundHalfEven]

theorem fppOf_c3_15 : fppOf c3ex15 c3em15 = 6 := by
  simp only [fppOf, c3ex15, c3em15, List.map_cons, List.map_nil,
    round2_zero, round2_one, round2_two]
  decide

theorem fppOf_c3_12 : fppOf c3ex12 c3em12 = 6 := by
  simp only [fppOf, c3ex12, c3em12, List.map_cons, List.map_nil,
    round2_zero, round2_one, round2_two]
  decide

/-- C3 (amended): with `fpp` the product of the numbers of unique rounded
excitation and emission angles and `Nframes = k*fpp + r` (`0 ≤ r < fpp`):
if `r = 0` (and `k ≥ 1`) `find_portraits` yields exactly `k` portraits with
the index list `[0, fpp, …, k*fpp]`; but if `0 < r` it raises the
divisibility AssertionError of movie.py line 525 instead of silently dropping
the trailing remainder frames (see the counterexample). -/
theorem find_portraits_spec (exangles emangles : List ℚ) (k r : ℕ)
    (hlen : exangles.length = k * fppOf exangles emangles + r)
    (hr : r < fppOf exangles emangles) :
    (r = 0 → 0 < k → find_portraits exangles emangles 0 =
      Except.ok ((k : ℤ),
        (List.range (k + 1)).map
          (fun pi : ℕ => (pi : ℤ) * (fppOf exangles emangles : ℤ)))) ∧
    (0 < r → find_portraits exangles emangles 0 =
      Except.error "AssertionError: np.mod( Nframes, fpp )==0") := by
  have hfpp : 0 < fppOf exangles emangles := Nat.lt_of_le_of_lt (Nat.zero_le r) hr
  have hmod : exangles.length % fppOf exangles emangles = r := by
    rw [hlen, Nat.add_comm, Nat.add_mul_mod_self_right]
    exact Nat.mod_eq_of_lt hr
  constructor
  · rintro rfl hk
    have hdiv : exangles.length / fppOf exangles emangles = k := by
      rw [hlen, Nat.add_zero, Nat.mul_div_cancel _ hfpp]
    have htw : ((List.range (k + 1)).map
        (fun pi : ℕ => (pi : ℤ) * (fppOf exangles emangles : ℤ) + 0)).takeWhile
          (fun ind => decide (ind ≤ (exangles.length : ℤ))) =
        (List.range (k + 1)).map
          (fun pi : ℕ => (pi : ℤ) * (fppOf exangles emangles : ℤ) + 0) := by
      apply takeWhile_eq_self
      intro x hx
      obtain ⟨pi, hpi, rfl⟩ := List.mem_map.mp hx
      rw [decide_eq_true_eq]
      have hpik : (pi : ℤ) ≤ (k : ℤ) := by
        exact_mod_cast Nat.lt_succ_iff.mp (List.mem_range.mp hpi)
      have hmul : (pi : ℤ) * (fppOf exangles emangles : ℤ) ≤
          (k : ℤ) * (fppOf exangles emangles : ℤ) :=
        mul_le_mul_of_nonneg_right hpik (by positivity)
      have hlen' : (exangles.length : ℤ) =
          (k : ℤ) * (fppOf exangles emangles : ℤ) := by
        rw [hlen]; push_cast; ring
      rw [hlen']
      linarith
    simp only [find_portraits, if_neg hfpp.ne', hmod, hdiv]
    rw [if_neg (by norm_num)]
    rw [htw]
    rw [if_neg (by
      rw [List.length_map, List.length_range]
      push_cast
      omega)]
    congr 1
    rw [Prod.mk.injEq]
    refine ⟨?_, ?_⟩
    · rw [List.length_map, List.length_range]
      push_cast
      ring
    · simp
  · intro hrpos
    simp only [find_portraits, if_neg hfpp.ne', hmod]
    rw [if_pos (by omega)]

/-- C3 witness: the 12-frame scan (3 unique excitation × 2 unique emission
angles, k = 2, r = 0) yields exactly 2 portraits with indices [0, 6, 12]. -/
theorem find_portraits_spec_witness :
    (c3ex12.length = 2 * fppOf c3ex12 c3em12 + 0 ∧ 0 < fppOf c3ex12 c3em12) ∧
    find_portraits c3ex12 c3em12 0 =
      Except.ok ((2 : ℤ),
        (List.range (2 + 1)).map
          (fun pi : ℕ => (pi : ℤ) * (fppOf c3ex12 c3em12 : ℤ))) := by
  have hlen : c3ex12.length = 2 * fppOf c3ex12 c3em12 + 0 := by
    rw [fppOf_c3_12]
    decide
  have hr : (0 : ℕ) < fppOf c3ex12 c3em12 := by rw [fppOf_c3_12]; norm_num
  exact ⟨⟨hlen, hr⟩,
    (find_portraits_spec c3ex12 c3em12 2 0 hlen hr).1 rfl (by norm_num)⟩

/-- C3 counterexample: the same scan with 15 frames (`15 = 2·6 + 3`, remainder
`0 < 3 < 6`) makes `find_portraits` raise the divisibility AssertionError —
the remainder is not dropped without error as the claim states. -/
theorem find_portraits_remainder_error_counterexample :
    fppOf c3ex15 c3em15 = 6 ∧ c3ex15.length = 2 * 6 + 3 ∧
    find_portraits c3ex15 c3em15 0 =
      Except.error "AssertionError: np.mod( Nframes, fpp )==0" := by
  have hl : c3ex15.length = 15 := rfl
  refine ⟨fppOf_c3_15, rfl, ?_⟩
  simp only [find_portraits, fppOf_c3_15, hl]
  norm_num

/-! ## C5: grid coverage validation in Movie.__init__ -/

theorem mem_npUnique (l : List ℚ) (a : ℚ) : a ∈ npUnique l ↔ a ∈ l := by
  simp [npUnique, Finset.mem_sort, List.mem_toFinset]

/-- C5: Movie construction succeeds iff every observed unique excitation and
emission angle is within `10·eps` of some entry of the corresponding grid —
it fails fatally (AssertionError) when some observed angle has no grid entry
within `10·eps`, and after a successful construction every observed angle has
one.  (Membership in the unique observed angles equals membership in the raw
angle lists.) -/
theorem movieInit_grid_validation (exangles emangles : List ℚ) (off : ℚ) :
    (∃ g, movieInitGrids exangles emangles off = Except.ok g) ↔
      ((∀ a ∈ exangles, ∃ x ∈ (movieGrids exangles emangles off).1, |a - x| < tenEps) ∧
       (∀ a ∈ emangles, ∃ x ∈ (movieGrids exangles emangles off).2, |a - x| < tenEps)) := by
  simp only [movieInitGrids]
  split_ifs with h1 h2
  · constructor
    · intro _
      constructor
      · intro a ha
        have h := List.all_eq_true.mp h1 a ((mem_npUnique _ _).mpr ha)
        simpa using h
      · intro a ha
        have h := List.all_eq_true.mp h2 a ((mem_npUnique _ _).mpr ha)
        simpa using h
    · intro _
      exact ⟨_, rfl⟩
  · constructor
    · rintro ⟨g, hg⟩
      exact absurd hg (by simp)
    · rintro ⟨-, hB⟩
      refine absurd ?_ h2
      rw [List.all_eq_true]
      intro a ha
      rw [List.any_eq_true]
      obtain ⟨x, hx, hlt⟩ := hB a ((mem_npUnique _ _).mp ha)
      exact ⟨x, hx, decide_eq_true hlt⟩
  · constructor
    · rintro ⟨g, hg⟩
      exact absurd hg (by simp)
    · rintro ⟨hA, -⟩
      refine absurd ?_ h1
      rw [List.all_eq_true]
      intro a ha
      rw [List.any_eq_true]
      obtain ⟨x, hx, hlt⟩ := hA a ((mem_npUnique _ _).mp ha)
      exact ⟨x, hx, decide_eq_true hlt⟩

/-- C5 witness: a single observed angle 0 with offset 0: the excitation and
emission grids are both `[0]`, the coverage condition holds, and construction
succeeds. -/
theorem movieInit_grid_validation_witness :
    ∃ g, movieInitGrids [(0 : ℚ)] [(0 : ℚ)] 0 = Except.ok g := by
  have hu : (npUnique [(0 : ℚ)]).length = 1 := by
    rw [npUnique, Finset.length_sort]
    decide
  have hr1 : List.range 1 = [0] := rfl
  have hgrid1 : (movieGrids [(0 : ℚ)] [(0 : ℚ)] 0).1 = [0] := by
    simp only [movieGrids, hu, linspaceNE, hr1, List.map_cons, List.map_nil,
      snapPi, abs_lt]
    norm_num [npMod, pi64, tenEps, eps64]
  have hgrid2 : (movieGrids [(0 : ℚ)] [(0 : ℚ)] 0).2 = [0] := by
    simp only [movieGrids, hu, linspaceNE, hr1, List.map_cons, List.map_nil]
    norm_num
  refine (movieInit_grid_validation [(0 : ℚ)] [(0 : ℚ)] 0).mpr ⟨?_, ?_⟩
  · intro a ha
    rw [List.mem_singleton] at ha
    subst ha
    refine ⟨0, by rw [hgrid1]; exact List.mem_singleton.mpr rfl, ?_⟩
    norm_num [tenEps, eps64]
  · intro a ha
    rw [List.mem_singleton] at ha
    subst ha
    refine ⟨0, by rw [hgrid2]; exact List.mem_singleton.mpr rfl, ?_⟩
    norm_num [tenEps, eps64]

/-! ## C6: the shape of the angle grids -/

theorem linspace_length (s : ℚ) (n : ℕ) : (linspaceNE s n).length = n := by
  simp [linspaceNE]

theorem linspace_pairwise (s : ℚ) (hs : 0 < s) (n : ℕ) :
    List.Pairwise (· < ·) (linspaceNE s n) := by
  rcases Nat.eq_zero_or_pos n with rfl | hn
  · simp [linspaceNE]
  · have hstep : 0 < s / n := div_pos hs (by exact_mod_cast hn)
    exact List.Pairwise.map _
      (fun a b hab => mul_lt_mul_of_pos_right (by exact_mod_cast hab) hstep)
      (List.pairwise_lt_range n)

theorem linspace_mem_bounds (s : ℚ) (hs : 0 < s) (n : ℕ) :
    ∀ x ∈ linspaceNE s n, 0 ≤ x ∧ x < s := by
  intro x hx
  obtain ⟨i, hi, rfl⟩ := List.mem_map.mp hx
  have hin : i < n := List.mem_range.mp hi
  have hn : 0 < n := lt_of_le_of_lt (Nat.zero_le i) hin
  constructor
  · positivity
  · have hstep : 0 < s / n := div_pos hs (by exact_mod_cast hn)
    have h1 : (i : ℚ) * (s / n) < (n : ℚ) * (s / n) :=
      mul_lt_mul_of_pos_right (by exact_mod_cast hin) hstep
    have h2 : (n : ℚ) * (s / n) = s := by
      field_simp
    linarith

theorem npMod_bounds (x m : ℚ) (hm : 0 < m) : 0 ≤ npMod x m ∧ npMod x m < m := by
  have hrw : npMod x m = m * Int.fract (x / m) := by
    unfold npMod Int.fract
    have hm0 : m ≠ 0 := hm.ne'
    field_simp
  constructor
  · rw [hrw]
    exact mul_nonneg hm.le (Int.fract_nonneg _)
  · rw [hrw]
    calc m * Int.fract (x / m) < m * 1 :=
          mul_lt_mul_of_pos_left (Int.fract_lt_one _) hm
      _ = m := mul_one m

theorem npMod_eq_self (x m : ℚ) (hx : 0 ≤ x) (hxm : x < m) : npMod x m = x := by
  have hm : 0 < m := lt_of_le_of_lt hx hxm
  have hfl : Int.floor (x / m) = 0 := by
    rw [Int.floor_eq_zero_iff, Set.mem_Ico]
    exact ⟨by positivity, (div_lt_one hm).mpr hxm⟩
  rw [npMod, hfl]
  norm_num

theorem npUnique_c6_len : (npUnique c6angles).length = 2 := by
  rw [npUnique, Finset.length_sort]
  decide

/-- C6 (amended): for every input angle set and phase offset, the grids have
length equal to the number of unique observed angles of each kind and are
evenly spaced samples of `[0, π)`; the phase offset is added only to the
excitation grid (the emission grid is the bare linspace); the excitation grid
is wrapped into `[0, π)`; values within ten machine epsilons of π are snapped
to exactly π before the wrap; the emission grid is monotonically increasing,
and so is the excitation grid *provided* the offset is nonnegative and small
enough that no shifted entry reaches π — for larger offsets the wrap breaks
monotonicity (see the counterexample), so the claim's unconditional
monotonicity fails. -/
theorem movieGrids_spec (exangles emangles : List ℚ) (off : ℚ)
    (hoff0 : 0 ≤ off * pi64 / 180)
    (hnowrap : ∀ x ∈ linspaceNE pi64 (npUnique exangles).length,
      x + off * pi64 / 180 < pi64 - tenEps) :
    ((movieGrids exangles emangles off).1.length = (npUnique exangles).length ∧
     (movieGrids exangles emangles off).2.length = (npUnique emangles).length) ∧
    ((movieGrids exangles emangles off).2 =
        linspaceNE pi64 (npUnique emangles).length ∧
     List.Pairwise (· < ·) (movieGrids exangles emangles off).2 ∧
     ∀ x ∈ (movieGrids exangles emangles off).2, 0 ≤ x ∧ x < pi64) ∧
    ((movieGrids exangles emangles off).1 =
       (linspaceNE pi64 (npUnique exangles).length).map
         (fun x => x + off * pi64 / 180) ∧
     List.Pairwise (· < ·) (movieGrids exangles emangles off).1) ∧
    (∀ off2 : ℚ, ∀ x ∈ (movieGrids exangles emangles off2).1, 0 ≤ x ∧ x < pi64) ∧
    (∀ y : ℚ, |y - pi64| < tenEps → snapPi y = pi64) := by
  have hpi : 0 < pi64 := pi64_pos
  have hteneps : 0 < tenEps := by norm_num [tenEps, eps64]
  have hex : (movieGrids exangles emangles off).1 =
      (linspaceNE pi64 (npUnique exangles).length).map
        (fun x => x + off * pi64 / 180) := by
    simp only [movieGrids, List.map_map]
    apply List.map_congr_left
    intro x hx
    obtain ⟨hx0, -⟩ := linspace_mem_bounds pi64 hpi _ x hx
    have hy1 : x + off * pi64 / 180 < pi64 - tenEps := hnowrap x hx
    have hy0 : 0 ≤ x + off * pi64 / 180 := by linarith
    have hsnap : snapPi (x + off * pi64 / 180) = x + off * pi64 / 180 := by
      rw [snapPi, if_neg]
      rw [abs_lt]
      push_neg
      intro h
      linarith
    simp only [Function.comp_apply, hsnap]
    exact npMod_eq_self _ _ hy0 (by linarith)
  refine ⟨⟨?_, ?_⟩, ⟨rfl, ?_, ?_⟩, ⟨hex, ?_⟩, ?_, ?_⟩
  · rw [hex, List.length_map, linspace_length]
  · simp only [movieGrids]
    exact linspace_length _ _
  · exact linspace_pairwise _ hpi _
  · exact linspace_mem_bounds _ hpi _
  · rw [hex]
    exact List.Pairwise.map _ (fun a b hab => by linarith)
      (linspace_pairwise _ hpi _)
  · intro off2 x hx
    simp only [movieGrids, List.map_map] at hx
    obtain ⟨y, -, rfl⟩ := List.mem_map.mp hx
    exact npMod_bounds _ _ hpi
  · intro y hy
    rw [snapPi, if_pos hy]

/-- C6 witness: two unique angles of each kind and offset 0: grids `[0, π/2]`,
increasing, in `[0, π)`. -/
theorem movieGrids_spec_witness :
    (0 ≤ (0 : ℚ) * pi64 / 180 ∧
     ∀ x ∈ linspaceNE pi64 (npUnique c6angles).length,
       x + (0 : ℚ) * pi64 / 180 < pi64 - tenEps) ∧
    (((movieGrids c6angles c6angles 0).1.length = (npUnique c6angles).length ∧
      (movieGrids c6angles c6angles 0).2.length = (npUnique c6angles).length) ∧
     ((movieGrids c6angles c6angles 0).2 =
         linspaceNE pi64 (npUnique c6angles).length ∧
      List.Pairwise (· < ·) (movieGrids c6angles c6angles 0).2 ∧
      ∀ x ∈ (movieGrids c6angles c6angles 0).2, 0 ≤ x ∧ x < pi64) ∧
     ((movieGrids c6angles c6angles 0).1 =
        (linspaceNE pi64 (npUnique c6angles).length).map
          (fun x => x + (0 : ℚ) * pi64 / 180) ∧
      List.Pairwise (· < ·) (movieGrids c6angles c6angles 0).1) ∧
     (∀ off2 : ℚ, ∀ x ∈ (movieGrids c6angles c6angles off2).1, 0 ≤ x ∧ x < pi64) ∧
     (∀ y : ℚ, |y - pi64| < tenEps → snapPi y = pi64)) := by
  have hnowrap : ∀ x ∈ linspaceNE pi64 (npUnique c6angles).length,
      x + (0 : ℚ) * pi64 / 180 < pi64 - tenEps := by
    rw [npUnique_c6_len]
    intro x hx
    obtain ⟨i, hi, rfl⟩ := List.mem_map.mp hx
    have : i < 2 := List.mem_range.mp hi
    interval_cases i <;> norm_num [pi64, tenEps, eps64]
  exact ⟨⟨by norm_num, hnowrap⟩,
    movieGrids_spec c6angles c6angles 0 (by norm_num) hnowrap⟩

/-- C6 counterexample: with two unique excitation angles and a phase offset of
115°, the second excitation grid entry `π/2 + 115°·π/180 > π` wraps around to
a value below the first entry: the constructed excitation grid is not
monotonically increasing, contradicting the claim. -/
theorem movieGrids_not_monotone_counterexample :
    ¬ List.Pairwise (· < ·) (movieGrids c6angles c6angles 115).1 := by
  have hrange : List.range 2 = [0, 1] := rfl
  have hgrid : (movieGrids c6angles c6angles 115).1 =
      [npMod (snapPi ((0 : ℚ) * (pi64 / 2) + 115 * pi64 / 180)) pi64,
       npMod (snapPi ((1 : ℚ) * (pi64 / 2) + 115 * pi64 / 180)) pi64] := by
    simp only [movieGrids, npUnique_c6_len, linspaceNE, hrange, List.map_cons,
      List.map_nil]
    norm_num
  rw [hgrid]
  have hs0 : snapPi ((0 : ℚ) * (pi64 / 2) + 115 * pi64 / 180) =
      (0 : ℚ) * (pi64 / 2) + 115 * pi64 / 180 := by
    rw [snapPi, if_neg]
    rw [abs_lt]
    push_neg
    intro h
    norm_num [pi64, tenEps, eps64] at h ⊢
  have hs1 : snapPi ((1 : ℚ) * (pi64 / 2) + 115 * pi64 / 180) =
      (1 : ℚ) * (pi64 / 2) + 115 * pi64 / 180 := by
    rw [snapPi, if_neg]
    rw [abs_lt]
    push_neg
    intro h
    norm_num [pi64, tenEps, eps64] at h ⊢
  have hm0 : npMod ((0 : ℚ) * (pi64 / 2) + 115 * pi64 / 180) pi64 =
      (0 : ℚ) * (pi64 / 2) + 115 * pi64 / 180 :=
    npMod_eq_self _ _ (by norm_num [pi64]) (by norm_num [pi64])
  have hfl1 : Int.floor (((1 : ℚ) * (pi64 / 2) + 115 * pi64 / 180) / pi64) = 1 := by
    norm_num [pi64]
  have hm1 : npMod ((1 : ℚ) * (pi64 / 2) + 115 * pi64 / 180) pi64 =
      (1 : ℚ) * (pi64 / 2) + 115 * pi64 / 180 - pi64 := by
    rw [npMod, hfl1]
    ring
  rw [hs0, hs1, hm0, hm1]
  simp only [List.pairwise_cons]
  push_neg
  intro h
  exfalso
  have := h _ (List.mem_cons_self _ _)
  norm_num [pi64] at this

/-! ## C10: are_spots_valid with unknown or degenerate background -/

/-- C10 (amended): in `are_spots_valid` the local `bgstd` persists across loop
iterations, so a spot without its own border background uses the most recent
preceding border-bg spot's std if one exists; only when no sample background
spot is defined and *no* spot carries border background (or the effective
bgstd contains a zero) does every spot get SNR `+inf` in every frame, and then
(for `validframesratio ≤ 1`) the entire spot list is retained as valid
regardless of intensity. -/
theorem are_spots_valid_spec (bg : Option (List ℚ)) (SNRthr vfr : ℚ)
    (spots : List SpotIn)
    (hdeg : degenerateBg bg = true)
    (hnob : ∀ s ∈ spots, s.use_borderbg = false)
    (hvfr : vfr ≤ 1) :
    (∀ s ∈ spots, spotSNR bg s = s.intensity.map (fun _ => SnrVal.inf)) ∧
    are_spots_valid bg SNRthr vfr spots = List.range spots.length := by
  have hsnr : ∀ s : SpotIn, spotSNR bg s = s.intensity.map (fun _ => SnrVal.inf) := by
    intro s
    match bg, hdeg with
    | none, _ => rfl
    | some b, hdeg =>
      rw [spotSNR, if_pos]
      exact hdeg
  have hloop : ∀ (l : List SpotIn) (si : ℕ), (∀ s ∈ l, s.use_borderbg = false) →
      areSpotsValidLoop SNRthr vfr bg si l = (List.range l.length).map (· + si) := by
    intro l
    induction l with
    | nil => intro si _; simp [areSpotsValidLoop]
    | cons s rest ih =>
      intro si hl
      have hs : s.use_borderbg = false := hl s (List.mem_cons_self _ _)
      have hrest : ∀ t ∈ rest, t.use_borderbg = false :=
        fun t ht => hl t (List.mem_cons_of_mem _ ht)
      have hfil : ((s.intensity.map (fun _ => SnrVal.inf)).filter
          (fun v => snrGTq v SNRthr)) = s.intensity.map (fun _ => SnrVal.inf) :=
        List.filter_eq_self.mpr (by
          intro v hv
          obtain ⟨-, -, rfl⟩ := List.mem_map.mp hv
          rfl)
      have hkeep : vfr * ((s.intensity.map
            (fun _ : ℚ => SnrVal.inf)).length : ℚ) ≤
          ((s.intensity.map (fun _ : ℚ => SnrVal.inf)).length : ℚ) := by
        calc vfr * ((s.intensity.map (fun _ : ℚ => SnrVal.inf)).length : ℚ)
            ≤ 1 * ((s.intensity.map (fun _ : ℚ => SnrVal.inf)).length : ℚ) :=
              mul_le_mul_of_nonneg_right hvfr (Nat.cast_nonneg _)
          _ = _ := one_mul _
      simp only [areSpotsValidLoop, hs, Bool.false_eq_true, if_false, hsnr s,
        hfil, decide_eq_true hkeep, if_true, List.singleton_append,
        List.length_cons]
      rw [ih (si + 1) hrest, List.range_succ_eq_map]
      simp only [List.map_cons, List.map_map, Nat.zero_add]
      congr 1
      apply List.map_congr_left
      intro m _
      simp only [Function.comp_apply]
      omega
  refine ⟨fun s _ => hsnr s, ?_⟩
  have := hloop spots 0 hnob
  simpa using this

/-- A valid-looking spot with no border background, for the C10 witness. -/
def c10wspot : SpotIn := ⟨[5], false, []⟩

/-- C10 witness: one spot, no background spot at all: its SNR is `+inf` for
every frame and it is retained. -/
theorem are_spots_valid_spec_witness :
    (degenerateBg none = true ∧ (7 : ℚ) / 10 ≤ 1) ∧
    spotSNR none c10wspot = c10wspot.intensity.map (fun _ => SnrVal.inf) ∧
    are_spots_valid none 10 (7 / 10) [c10wspot] = List.range 1 :=
  ⟨⟨rfl, by norm_num⟩,
   (are_spots_valid_spec none 10 (7 / 10) [c10wspot] rfl
      (by simp [c10wspot]) (by norm_num)).1 c10wspot (List.mem_cons_self _ _),
   (are_spots_valid_spec none 10 (7 / 10) [c10wspot] rfl
      (by simp [c10wspot]) (by norm_num)).2⟩

/-- C10 counterexample: no sample background spot is defined and the second
spot does not carry its own border background, yet — because the first spot's
border-background std `[1]` persists in the loop variable — the second spot's
SNR is the finite `[|0/1|] = [0]`, not `+inf`, and with zero intensity both
spots fail the valid-frames-ratio criterion: the valid list is empty, not the
entire spot list. -/
theorem are_spots_valid_carryover_counterexample :
    c10spot2.use_borderbg = false ∧
    spotSNR (some c10spot1.borderbgstd) c10spot2 = [SnrVal.fin 0] ∧
    are_spots_valid none 10 (7 / 10) [c10spot1, c10spot2] = [] := by
  refine ⟨rfl, ?_, ?_⟩
  · simp only [spotSNR, c10spot1, c10spot2]
    norm_num
  · simp only [are_spots_valid, areSpotsValidLoop, c10spot1, c10spot2, spotSNR]
    norm_num [snrGTq]

end POLIM
